import Mathlib

/-!
Shallow embedding of `src/Dashboard.py`, an interactive terminal dashboard that
browses a two-level directory hierarchy (units → subfolders → `.py` scripts),
shows script contents and optionally launches them.

The filesystem is modelled as a finite list of path/node pairs; paths are lists
of name segments below the model's root (the Python `BASE_DIR`).  Python
library calls (`Path.iterdir`, `Path.is_file`, `open(...).read()` with UTF-8
decoding, `str.isdigit`, `int(...)`, `sorted(key=lambda x: x.name.lower())`,
`Path.suffix`) are embedded by their documented semantics.  The interactive
read-eval loops of `mostrar_menu` / `mostrar_sub_menu` / `mostrar_scripts` are
embedded as one step function on an explicit navigation state, fed one stripped
input line at a time; console printing is abstracted away except where a claim
needs it (read-error messages, launch effects).

The numeric-input embedding (`pyIsdigit`, `pyInt`) covers the ASCII fragment
of Python's `str.isdigit` / `int` and is exact there; Python additionally
accepts non-ASCII digit characters, on some of which (`str.isdigit`-true but
`int`-rejected, e.g. U+00B2) the source crashes with an uncaught
`ValueError`.  That behavior is outside this embedding, so the theorems that
exercise index parsing are scoped to all-ASCII input.
-/

namespace Dashboard

/-- A filesystem path: the list of name segments below the model's root. -/
abbrev FsPath := List String

/-- Final path segment, i.e. pathlib's `Path.name`. -/
def pathName (p : FsPath) : String := p.getLastD ""

/-- What a regular file holds, as far as reading it with UTF-8 decoding goes:
its decoded text, or bytes that are not valid UTF-8, or a file whose read
raises some other `OSError` (permissions, I/O fault). -/
inductive FileData
  | text (s : String)
  | binary
  | unreadable
  deriving DecidableEq

/-- A filesystem node: a directory or a regular file. -/
inductive Node
  | dir
  | file (data : FileData)
  deriving DecidableEq

/-- A filesystem snapshot: a finite association of paths to nodes. -/
structure FS where
  entries : List (FsPath × Node)
  deriving DecidableEq

/-- Node stored at `p`, if any. -/
def FS.find (fs : FS) (p : FsPath) : Option Node :=
  (fs.entries.find? (fun e => e.1 == p)).map (·.2)

/-- Embeds `Path.is_dir()`. -/
def FS.isDir (fs : FS) (p : FsPath) : Bool :=
  match fs.find p with
  | some .dir => true
  | _ => false

/-- Embeds `Path.is_file()`. -/
def FS.isFile (fs : FS) (p : FsPath) : Bool :=
  match fs.find p with
  | some (.file _) => true
  | _ => false

/-- Embeds `Path.exists()`: true for a directory or a file at `p`. -/
def FS.existsPath (fs : FS) (p : FsPath) : Bool := (fs.find p).isSome

/-- Is `q` an immediate child path of `p`? -/
def isChildOf (p q : FsPath) : Bool :=
  q.length == p.length + 1 && q.take p.length == p

/-- Immediate children of `p` present in the snapshot, in entry order
(the enumeration order of `Path.iterdir`). -/
def FS.children (fs : FS) (p : FsPath) : List FsPath :=
  (fs.entries.map (·.1)).filter (isChildOf p)

/-- Python exceptions that the embedded fragments can raise. -/
inductive PyErr
  | fileNotFound
  | notADirectory
  | unicodeDecodeError
  | osError
  deriving DecidableEq

deriving instance DecidableEq for Except

/-- Embeds `Path.iterdir()`: yields the immediate children of a directory,
raises `FileNotFoundError` on a missing path and `NotADirectoryError` on a
file. -/
def iterdir (fs : FS) (p : FsPath) : Except PyErr (List FsPath) :=
  match fs.find p with
  | some .dir => .ok (fs.children p)
  | some (.file _) => .error .notADirectory
  | none => .error .fileNotFound

/-- Index of the last occurrence of `c`, if any (Python `str.rfind`). -/
def lastIdxOf (c : Char) : List Char → Option Nat
  | [] => none
  | x :: xs =>
    match lastIdxOf c xs with
    | some i => some (i + 1)
    | none => if x == c then some 0 else none

/-- Embeds pathlib's `Path.suffix` on a file name: the substring from the last
dot, provided that dot is neither the first nor the last character; otherwise
the empty string. -/
def pySuffix (nm : String) : String :=
  let cs := nm.data
  match lastIdxOf '.' cs with
  | none => ""
  | some i => if 0 < i && i < cs.length - 1 then String.mk (cs.drop i) else ""

/-- Strict lexicographic order on character lists by code point: exactly
Python's `<` on `str`. -/
def lexLt : List Char → List Char → Bool
  | _, [] => false
  | [], _ :: _ => true
  | a :: as, b :: bs => if a < b then true else if b < a then false else lexLt as bs

/-- Characters of `s` lowercased (Python `str.lower()` on ASCII names). -/
def lowerData (s : String) : List Char := s.data.map Char.toLower

/-- Sort key used by the listers: `x.name.lower()`. -/
def nameLower (p : FsPath) : List Char := lowerData (pathName p)

/-- Strict comparison of the case-insensitive name keys. -/
def nameKeyLt (a b : FsPath) : Bool := lexLt (nameLower a) (nameLower b)

/-- Non-strict comparison of the case-insensitive name keys. -/
def nameKeyLe (a b : FsPath) : Bool := !(nameKeyLt b a)

/-- Stable insertion into a list already sorted by the name key: the new
element goes before the first strictly greater element and after equal ones. -/
def insertSorted (x : FsPath) : List FsPath → List FsPath
  | [] => [x]
  | y :: ys => if nameKeyLt y x then y :: insertSorted x ys else x :: y :: ys

/-- Embeds Python's stable `sorted(l, key=lambda x: x.name.lower())`. -/
def sortByNameLower (l : List FsPath) : List FsPath :=
  l.foldr insertSorted []

/-- Embeds `listar_carpetas`: the immediate child directories of `ruta`,
sorted case-insensitively by name; a raised exception propagates. -/
def listar_carpetas (fs : FS) (ruta : FsPath) : Except PyErr (List FsPath) :=
  match iterdir fs ruta with
  | .error e => .error e
  | .ok cs => .ok (sortByNameLower (cs.filter (fun p => fs.isDir p)))

/-- Embeds `listar_scripts_py`: the immediate child files of `ruta` whose
suffix is exactly `.py`, sorted case-insensitively by name; a raised exception
propagates. -/
def listar_scripts_py (fs : FS) (ruta : FsPath) : Except PyErr (List FsPath) :=
  match iterdir fs ruta with
  | .error e => .error e
  | .ok cs =>
    .ok (sortByNameLower
      (cs.filter (fun p => fs.isFile p && pySuffix (pathName p) == ".py")))

/-- Body of `leer_codigo` before its `try/except`: `None` when the path is not
a regular file, otherwise the result of opening and reading with UTF-8
decoding, which can raise. -/
def leer_codigo_raw (fs : FS) (p : FsPath) : Except PyErr (Option String) :=
  match fs.find p with
  | some (.file (.text s)) => .ok (some s)
  | some (.file .binary) => .error .unicodeDecodeError
  | some (.file .unreadable) => .error .osError
  | _ => .ok none

/-- Embeds `leer_codigo`: the `try/except Exception` wrapper turns every raised
exception into `None`. -/
def leer_codigo (fs : FS) (p : FsPath) : Option String :=
  match leer_codigo_raw fs p with
  | .ok v => v
  | .error _ => none

/-- Diagnostic messages `leer_codigo` can print. -/
inductive Msg
  | fileNotValid
  | readError (e : PyErr)
  deriving DecidableEq

/-- Message printed by `leer_codigo`, if any: the fixed not-a-valid-file
message on the early return, or the generic read-error message carrying the
caught exception. -/
def leer_codigo_msg (fs : FS) (p : FsPath) : Option Msg :=
  match fs.find p with
  | some (.file (.text _)) => none
  | some (.file .binary) => some (.readError .unicodeDecodeError)
  | some (.file .unreadable) => some (.readError .osError)
  | _ => some .fileNotValid

/-- Embeds `mostrar_codigo`: prints the content and reports whether the read
succeeded. -/
def mostrar_codigo (fs : FS) (p : FsPath) : Bool := (leer_codigo fs p).isSome

/-- Is the character ASCII?  The parsing embeddings below are exact on, and
the parsing theorems are scoped to, strings of ASCII characters. -/
def isAscii (c : Char) : Bool := c.toNat < 128

/-- Is the string all ASCII? -/
def allAscii (s : String) : Bool := s.data.all isAscii

/-- Embeds Python `str.isdigit` on the ASCII fragment: nonempty and all ASCII
decimal digits.  Python's full `isdigit` also accepts non-ASCII digit
characters — decimal ones such as U+0663, which `int` converts, and
digit-only ones such as U+00B2, which `int` rejects with `ValueError`, an
uncaught crash path of the source's `isdigit`-then-`int` guard.  Those
characters are outside this embedding, so every theorem here that exercises
parsing carries an `allAscii` hypothesis. -/
def pyIsdigit (s : String) : Bool := !s.data.isEmpty && s.data.all Char.isDigit

/-- Embeds Python `int(...)` on all-ASCII-digit strings, where `int` is total
and returns the decimal value.  On non-ASCII strings admitted by
`str.isdigit`, `int` may instead raise `ValueError` (see `pyIsdigit`); that
domain is outside this embedding. -/
def pyInt (s : String) : Nat :=
  s.data.foldl (fun n c => n * 10 + (c.toNat - 48)) 0

/-- The dashboard's base directory is the model's root. -/
def BASE_DIR : FsPath := []

/-- Embeds the hardcoded `unidades` dictionary of `mostrar_menu`, in insertion
order. -/
def unidades : List (String × FsPath) :=
  [("1", BASE_DIR ++ ["Unidad 1"]), ("2", BASE_DIR ++ ["Unidad 2"])]

/-- Dictionary lookup `unidades[eleccion]`. -/
def lookupUnidad (k : String) : Option FsPath :=
  (unidades.find? (fun e => e.1 == k)).map (·.2)

/-- The unit paths the main menu offers on a render.  The render loop iterates
the hardcoded dictionary and never consults the filesystem, so the argument is
unused. -/
def unitOptions (_fs : FS) : List FsPath := unidades.map (·.2)

/-- Observable side effects of one navigation step. -/
inductive Effect
  | readScript (p : FsPath)
  | launch (p : FsPath)
  deriving DecidableEq

/-- Navigation states of the nested read-eval loops.  `unit` carries the
subfolder list captured once on entry (`mostrar_sub_menu` computes
`sub_carpetas` before its loop); the scripts list is not carried because
`mostrar_scripts` recomputes it on every iteration.  `execPrompt` is the
execute question after a successful content display, `ackWait` the
press-enter acknowledgement before the script menu redisplays. -/
inductive St
  | main
  | unit (u : FsPath) (subs : List FsPath)
  | scripts (u : FsPath) (subs : List FsPath) (s : FsPath)
  | execPrompt (u : FsPath) (subs : List FsPath) (s : FsPath) (script : FsPath)
  | ackWait (u : FsPath) (subs : List FsPath) (s : FsPath)
  | exited
  | crashed
  deriving DecidableEq

/-- Handling of a validly selected script inside the `mostrar_scripts` loop:
`mostrar_codigo` reads and shows it; on success the execute prompt follows,
on failure the flow falls through to the acknowledgement wait. -/
def selectScript (fs : FS) (u : FsPath) (subs : List FsPath) (s : FsPath)
    (script : FsPath) : St × List Effect :=
  if mostrar_codigo fs script then
    (.execPrompt u subs s script, [.readScript script])
  else
    (.ackWait u subs s, [.readScript script])

/-- One iteration of the `mostrar_scripts` loop after the scripts list has
been recomputed: the empty listing shows a 0-only prompt; otherwise `"0"` and
`"9"` both return to the caller, a digit string in range selects a script and
reads it, anything else redisplays. -/
def stepScriptsMenu (fs : FS) (u : FsPath) (subs : List FsPath) (s : FsPath)
    (scripts : List FsPath) (input : String) : St × List Effect :=
  if scripts.isEmpty then
    if input = "0" then (.unit u subs, []) else (.scripts u subs s, [])
  else
    if input = "0" then (.unit u subs, [])
    else if input = "9" then (.unit u subs, [])
    else if !(pyIsdigit input) then (.scripts u subs s, [])
    else
      if h : 0 ≤ (pyInt input : Int) - 1 ∧ (pyInt input : Int) - 1 < scripts.length then
        selectScript fs u subs s (scripts.get ⟨((pyInt input : Int) - 1).toNat, by omega⟩)
      else (.scripts u subs s, [])

/-- One step of the navigation controller: from a state and one stripped line
of input, the next state and the effects performed, against the filesystem
snapshot `fs` current at that moment. -/
def step (fs : FS) (st : St) (input : String) : St × List Effect :=
  match st with
  | .main =>
    if input = "0" then (.exited, [])
    else
      match lookupUnidad input with
      | none => (.main, [])
      | some u =>
        if !(fs.existsPath u) then (.main, [])
        else
          match listar_carpetas fs u with
          | .error _ => (.crashed, [])
          | .ok [] => (.main, [])
          | .ok subs => (.unit u subs, [])
  | .unit u subs =>
    if input = "0" then (.main, [])
    else if !(pyIsdigit input) then (.unit u subs, [])
    else
      let idx : Int := (pyInt input : Int) - 1
      if h : 0 ≤ idx ∧ idx < subs.length then
        (.scripts u subs (subs.get ⟨idx.toNat, by omega⟩), [])
      else (.unit u subs, [])
  | .scripts u subs s =>
    match listar_scripts_py fs s with
    | .error _ => (.crashed, [])
    | .ok scripts => stepScriptsMenu fs u subs s scripts input
  | .execPrompt u subs s script =>
    if input = "1" then (.ackWait u subs s, [.launch script])
    else (.ackWait u subs s, [])
  | .ackWait u subs s => (.scripts u subs s, [])
  | .exited => (.exited, [])
  | .crashed => (.crashed, [])

/-- The strict lexicographic order is irreflexive. -/
theorem lexLt_irrefl : ∀ a, lexLt a a = false := by
  intro a
  induction a with
  | nil => rfl
  | cons x xs ih => simp [lexLt, lt_irrefl, ih]

/-- The strict lexicographic order is transitive. -/
theorem lexLt_trans :
    ∀ a b c, lexLt a b = true → lexLt b c = true → lexLt a c = true := by
  intro a
  induction a with
  | nil =>
    intro b c hab hbc
    cases b with
    | nil => exact hbc
    | cons y ys =>
      cases c with
      | nil => simp [lexLt] at hbc
      | cons z zs => simp [lexLt]
  | cons x xs ih =>
    intro b c hab hbc
    cases b with
    | nil => simp [lexLt] at hab
    | cons y ys =>
      cases c with
      | nil => simp [lexLt] at hbc
      | cons z zs =>
        simp only [lexLt] at hab hbc ⊢
        rcases lt_trichotomy x y with hxy | hxy | hxy
        · rcases lt_trichotomy y z with hyz | hyz | hyz
          · simp [lt_trans hxy hyz]
          · simp [hyz ▸ hxy]
          · simp [not_lt.mpr (le_of_lt hyz), hyz] at hbc
        · subst hxy
          simp only [lt_irrefl, if_false] at hab
          rcases lt_trichotomy x z with hxz | hxz | hxz
          · simp [hxz]
          · subst hxz
            simp only [lt_irrefl, if_false] at hbc ⊢
            exact ih ys zs hab hbc
          · simp [not_lt.mpr (le_of_lt hxz), hxz] at hbc
        · simp [not_lt.mpr (le_of_lt hxy), hxy] at hab

/-- When `a` is not lexicographically below `b`, either the reverse strict
comparison holds or the lists are equal. -/
theorem lexLt_trichotomy :
    ∀ a b, lexLt a b = false → lexLt b a = true ∨ a = b := by
  intro a
  induction a with
  | nil =>
    intro b hab
    cases b with
    | nil => exact Or.inr rfl
    | cons y ys => simp [lexLt] at hab
  | cons x xs ih =>
    intro b hab
    cases b with
    | nil => exact Or.inl rfl
    | cons y ys =>
      simp only [lexLt] at hab ⊢
      rcases lt_trichotomy x y with hxy | hxy | hxy
      · simp [hxy] at hab
      · subst hxy
        simp only [lt_irrefl, if_false] at hab ⊢
        rcases ih ys hab with h | h
        · exact Or.inl h
        · exact Or.inr (by rw [h])
      · simp [hxy]

/-- The strict lexicographic order is asymmetric. -/
theorem lexLt_asymm : ∀ a b, lexLt a b = true → lexLt b a = false := by
  intro a b hab
  by_contra h
  have hba : lexLt b a = true := by
    cases hx : lexLt b a with
    | false => exact absurd hx h
    | true => rfl
  have := lexLt_trans a b a hab hba
  rw [lexLt_irrefl] at this
  exact Bool.false_ne_true this

/-- A strictly smaller name key is also non-strictly smaller. -/
theorem nameKeyLe_of_lt (a b : FsPath) (h : nameKeyLt a b = true) :
    nameKeyLe a b = true := by
  unfold nameKeyLe nameKeyLt at *
  rw [lexLt_asymm _ _ h]
  rfl

/-- Failure of the reverse strict comparison gives the non-strict one. -/
theorem nameKeyLe_of_not_lt (a b : FsPath) (h : nameKeyLt b a = false) :
    nameKeyLe a b = true := by
  unfold nameKeyLe
  rw [h]
  rfl

/-- The non-strict name-key comparison is transitive. -/
theorem nameKeyLe_trans (a b c : FsPath) (hab : nameKeyLe a b = true)
    (hbc : nameKeyLe b c = true) : nameKeyLe a c = true := by
  unfold nameKeyLe nameKeyLt at *
  rw [Bool.not_eq_true'] at hab hbc ⊢
  by_contra h
  have hca : lexLt (nameLower c) (nameLower a) = true := by
    cases hx : lexLt (nameLower c) (nameLower a) with
    | false => exact absurd hx h
    | true => rfl
  rcases lexLt_trichotomy _ _ hbc with h' | h'
  · have := lexLt_trans _ _ _ h' hca
    rw [this] at hab
    simp at hab
  · rw [h'] at hca
    rw [hca] at hab
    simp at hab

/-- Membership through stable insertion. -/
theorem mem_insertSorted (x q : FsPath) :
    ∀ l : List FsPath, q ∈ insertSorted x l ↔ q = x ∨ q ∈ l := by
  intro l
  induction l with
  | nil => simp [insertSorted]
  | cons y ys ih =>
    simp only [insertSorted]
    by_cases h : nameKeyLt y x = true
    · simp only [h, if_true, List.mem_cons, ih]
      tauto
    · simp only [Bool.not_eq_true] at h
      simp only [h, Bool.false_eq_true, if_false, List.mem_cons]

/-- Stable insertion preserves sortedness by the name key. -/
theorem pairwise_insertSorted (x : FsPath) :
    ∀ l : List FsPath, l.Pairwise (fun a b => nameKeyLe a b = true) →
      (insertSorted x l).Pairwise (fun a b => nameKeyLe a b = true) := by
  intro l
  induction l with
  | nil => intro _; simp [insertSorted]
  | cons y ys ih =>
    intro hp
    rw [List.pairwise_cons] at hp
    simp only [insertSorted]
    by_cases h : nameKeyLt y x = true
    · simp only [h, if_true]
      rw [List.pairwise_cons]
      constructor
      · intro z hz
        rcases (mem_insertSorted x z ys).mp hz with rfl | hz'
        · exact nameKeyLe_of_lt y z h
        · exact hp.1 z hz'
      · exact ih hp.2
    · simp only [Bool.not_eq_true] at h
      simp only [h, Bool.false_eq_true, if_false]
      rw [List.pairwise_cons]
      constructor
      · intro z hz
        rcases List.mem_cons.mp hz with rfl | hz'
        · exact nameKeyLe_of_not_lt x z h
        · exact nameKeyLe_trans x y z (nameKeyLe_of_not_lt x y h) (hp.1 z hz')
      · rw [List.pairwise_cons]
        exact hp

/-- The lister sort keeps exactly the input's elements. -/
theorem mem_sortByNameLower (q : FsPath) :
    ∀ l : List FsPath, q ∈ sortByNameLower l ↔ q ∈ l := by
  intro l
  induction l with
  | nil => simp [sortByNameLower]
  | cons y ys ih =>
    simp only [sortByNameLower, List.foldr_cons] at *
    rw [mem_insertSorted, ih, List.mem_cons]

/-- The lister sort output is sorted by case-insensitive name. -/
theorem pairwise_sortByNameLower :
    ∀ l : List FsPath,
      (sortByNameLower l).Pairwise (fun a b => nameKeyLe a b = true) := by
  intro l
  induction l with
  | nil => simp [sortByNameLower]
  | cons y ys ih =>
    simp only [sortByNameLower, List.foldr_cons] at *
    exact pairwise_insertSorted y _ ih

/-- Sample snapshot with the expected layout: the two hardcoded unit folders,
one subfolder holding two scripts and a text file. -/
def fsDemo : FS :=
  ⟨[([], .dir),
    (["Unidad 1"], .dir),
    (["Unidad 1", "Semana 1"], .dir),
    (["Unidad 1", "Semana 1", "a.py"], .file (.text "print(1)")),
    (["Unidad 1", "Semana 1", "B.py"], .file (.text "print(2)")),
    (["Unidad 1", "Semana 1", "notas.txt"], .file (.text "x")),
    (["Unidad 2"], .dir)]⟩

/-- Snapshot whose root holds a single directory named `Unidad 3`. -/
def fsTres : FS := ⟨[([], .dir), (["Unidad 3"], .dir)]⟩

/-- Snapshot with a subfolder `S` holding nine scripts. -/
def fsNueve : FS :=
  ⟨[(["S"], .dir),
    (["S", "s1.py"], .file (.text "")),
    (["S", "s2.py"], .file (.text "")),
    (["S", "s3.py"], .file (.text "")),
    (["S", "s4.py"], .file (.text "")),
    (["S", "s5.py"], .file (.text "")),
    (["S", "s6.py"], .file (.text "")),
    (["S", "s7.py"], .file (.text "")),
    (["S", "s8.py"], .file (.text "")),
    (["S", "s9.py"], .file (.text ""))]⟩

/-- Snapshot with a subfolder `S` holding no `.py` file. -/
def fsSinScripts : FS :=
  ⟨[([], .dir), (["S"], .dir), (["S", "notas.txt"], .file (.text "x"))]⟩

/-- Snapshot with a non-UTF-8 file and an unreadable file. -/
def fsFallas : FS :=
  ⟨[([], .dir), (["b.py"], .file .binary), (["locked.py"], .file .unreadable)]⟩

/-- Snapshot holding only an empty root directory. -/
def fsVacio : FS := ⟨[([], .dir)]⟩

/-- A successful `listar_carpetas` means the path held a directory. -/
theorem find_eq_dir_of_listar_carpetas (fs : FS) (p : FsPath) (l : List FsPath)
    (h : listar_carpetas fs p = .ok l) : fs.find p = some .dir := by
  unfold listar_carpetas iterdir at h
  cases hfind : fs.find p with
  | none => rw [hfind] at h; simp at h
  | some n =>
    cases n with
    | dir => rfl
    | file d => rw [hfind] at h; simp at h

/-- A successful `listar_scripts_py` means the path held a directory. -/
theorem find_eq_dir_of_listar_scripts (fs : FS) (p : FsPath) (l : List FsPath)
    (h : listar_scripts_py fs p = .ok l) : fs.find p = some .dir := by
  unfold listar_scripts_py iterdir at h
  cases hfind : fs.find p with
  | none => rw [hfind] at h; simp at h
  | some n =>
    cases n with
    | dir => rfl
    | file d => rw [hfind] at h; simp at h

/-- On a directory, `listar_scripts_py` is the sorted filter of the children. -/
theorem listar_scripts_py_eq_of_dir (fs : FS) (p : FsPath)
    (h : fs.find p = some .dir) :
    listar_scripts_py fs p =
      .ok (sortByNameLower ((fs.children p).filter
        (fun q => fs.isFile q && pySuffix (pathName q) == ".py"))) := by
  unfold listar_scripts_py iterdir
  rw [h]

/-- Claim C2 counterexample: calling either lister on a path that does not
exist raises `FileNotFoundError` instead of returning an empty sequence, so
the listers are not error-free on missing paths. -/
theorem c2_counterexample :
    fsVacio.existsPath ["x"] = false ∧
    listar_carpetas fsVacio ["x"] = .error .fileNotFound ∧
    listar_scripts_py fsVacio ["x"] = .error .fileNotFound ∧
    listar_carpetas fsVacio ["x"] ≠ .ok [] ∧
    listar_scripts_py fsVacio ["x"] ≠ .ok [] := by decide

/-- Claim C2 (amended): for every path that does not exist, both listers
raise `FileNotFoundError` (propagated from `Path.iterdir`) rather than
returning an empty sequence; the callers avoid this by checking existence
before listing. -/
theorem c2_amended (fs : FS) (p : FsPath) (h : fs.existsPath p = false) :
    listar_carpetas fs p = .error .fileNotFound ∧
    listar_scripts_py fs p = .error .fileNotFound := by
  have hf : fs.find p = none := by
    unfold FS.existsPath at h
    cases hx : fs.find p with
    | none => rfl
    | some v => rw [hx] at h; simp at h
  constructor
  · unfold listar_carpetas iterdir
    rw [hf]
  · unfold listar_scripts_py iterdir
    rw [hf]

/-- Claim C2 witness: the amended statement at a concrete missing path. -/
theorem c2_witness :
    fsVacio.existsPath ["y"] = false ∧
    (listar_carpetas fsVacio ["y"] = .error .fileNotFound ∧
     listar_scripts_py fsVacio ["y"] = .error .fileNotFound) :=
  ⟨by decide, c2_amended fsVacio ["y"] (by decide)⟩

/-- Claim C4 counterexample: a missing file and a non-UTF-8 file give the
identical reader result `none`, so the `NotFound`, `DecodeError` and `IoError`
failure kinds are not distinguishable in the result. -/
theorem c4_counterexample :
    fsVacio.isFile ["b.py"] = false ∧
    fsFallas.find ["b.py"] = some (.file .binary) ∧
    fsFallas.find ["locked.py"] = some (.file .unreadable) ∧
    leer_codigo fsVacio ["b.py"] = none ∧
    leer_codigo fsFallas ["b.py"] = none ∧
    leer_codigo fsFallas ["locked.py"] = none ∧
    leer_codigo fsVacio ["b.py"] = leer_codigo fsFallas ["b.py"] := by decide

/-- Claim C4 (amended): the Content Reader returns the full content on
success and the single absent value `none` on every failure; the failure
kinds (not a file, decode error, other read error) are distinguished only in
the printed diagnostic message, never in the returned value. -/
theorem c4_amended :
    (∀ (fs : FS) (p : FsPath) (s : String),
      fs.find p = some (.file (.text s)) →
      leer_codigo fs p = some s ∧ leer_codigo_msg fs p = none) ∧
    (∀ (fs : FS) (p : FsPath), fs.isFile p = false →
      leer_codigo fs p = none ∧ leer_codigo_msg fs p = some .fileNotValid) ∧
    (∀ (fs : FS) (p : FsPath), fs.find p = some (.file .binary) →
      leer_codigo fs p = none ∧
      leer_codigo_msg fs p = some (.readError .unicodeDecodeError)) ∧
    (∀ (fs : FS) (p : FsPath), fs.find p = some (.file .unreadable) →
      leer_codigo fs p = none ∧
      leer_codigo_msg fs p = some (.readError .osError)) := by
  refine ⟨?_, ?_, ?_, ?_⟩
  · intro fs p s h
    constructor <;> simp [leer_codigo, leer_codigo_raw, leer_codigo_msg, h]
  · intro fs p h
    unfold FS.isFile at h
    cases hf : fs.find p with
    | none => constructor <;> simp [leer_codigo, leer_codigo_raw, leer_codigo_msg, hf]
    | some n =>
      cases n with
      | dir => constructor <;> simp [leer_codigo, leer_codigo_raw, leer_codigo_msg, hf]
      | file d => rw [hf] at h; simp at h
  · intro fs p h
    constructor <;> simp [leer_codigo, leer_codigo_raw, leer_codigo_msg, h]
  · intro fs p h
    constructor <;> simp [leer_codigo, leer_codigo_raw, leer_codigo_msg, h]

/-- Claim C4 witness: the amended statement at concrete files of each kind. -/
theorem c4_witness :
    (leer_codigo fsDemo ["Unidad 1", "Semana 1", "a.py"] = some "print(1)" ∧
     leer_codigo_msg fsDemo ["Unidad 1", "Semana 1", "a.py"] = none) ∧
    (leer_codigo fsVacio ["missing.py"] = none ∧
     leer_codigo_msg fsVacio ["missing.py"] = some .fileNotValid) ∧
    (leer_codigo fsFallas ["b.py"] = none ∧
     leer_codigo_msg fsFallas ["b.py"] = some (.readError .unicodeDecodeError)) ∧
    (leer_codigo fsFallas ["locked.py"] = none ∧
     leer_codigo_msg fsFallas ["locked.py"] = some (.readError .osError)) :=
  ⟨c4_amended.1 fsDemo ["Unidad 1", "Semana 1", "a.py"] "print(1)" (by decide),
   c4_amended.2.1 fsVacio ["missing.py"] (by decide),
   c4_amended.2.2.1 fsFallas ["b.py"] (by decide),
   c4_amended.2.2.2 fsFallas ["locked.py"] (by decide)⟩

/-- Claim C6: on any directory, `listar_scripts_py` returns exactly the
immediate child files whose pathlib suffix is exactly `.py`, sorted ascending
by case-insensitive name. -/
theorem c6_scripts_listing (fs : FS) (p : FsPath) (l : List FsPath)
    (h : listar_scripts_py fs p = .ok l) :
    (∀ q, q ∈ l ↔
      (q ∈ fs.children p ∧ fs.isFile q = true ∧ pySuffix (pathName q) = ".py")) ∧
    l.Pairwise (fun a b => nameKeyLe a b = true) := by
  have hdir := find_eq_dir_of_listar_scripts fs p l h
  rw [listar_scripts_py_eq_of_dir fs p hdir] at h
  injection h with hl
  constructor
  · intro q
    rw [← hl, mem_sortByNameLower, List.mem_filter]
    constructor
    · rintro ⟨hq1, hq2⟩
      rw [Bool.and_eq_true] at hq2
      exact ⟨hq1, hq2.1, by simpa using hq2.2⟩
    · rintro ⟨hq1, hq2, hq3⟩
      refine ⟨hq1, ?_⟩
      rw [Bool.and_eq_true]
      exact ⟨hq2, by simpa using hq3⟩
  · rw [← hl]
    exact pairwise_sortByNameLower _

/-- Claim C6 witness: the listing property at a concrete folder holding two
scripts (mixed case) and one text file. -/
theorem c6_witness :
    (∀ q, q ∈ [(["Unidad 1", "Semana 1", "a.py"] : FsPath),
               ["Unidad 1", "Semana 1", "B.py"]] ↔
      (q ∈ fsDemo.children ["Unidad 1", "Semana 1"] ∧
       fsDemo.isFile q = true ∧ pySuffix (pathName q) = ".py")) ∧
    List.Pairwise (fun a b => nameKeyLe a b = true)
      [(["Unidad 1", "Semana 1", "a.py"] : FsPath),
       ["Unidad 1", "Semana 1", "B.py"]] :=
  c6_scripts_listing fsDemo ["Unidad 1", "Semana 1"] _ (by decide)

/-- Claim C10: `leer_codigo` is total over every snapshot and path: its result
is either `none` or the file's decoded content, and whenever its body raises,
the `try/except` wrapper converts the exception into `none` rather than
propagating it. -/
theorem c10_reader_total : ∀ (fs : FS) (p : FsPath),
    (leer_codigo fs p = none ∨
      ∃ s, leer_codigo fs p = some s ∧ fs.find p = some (.file (.text s))) ∧
    (match leer_codigo_raw fs p with
     | .error _ => leer_codigo fs p = none
     | .ok v => leer_codigo fs p = v) := by
  intro fs p
  cases hf : fs.find p with
  | none => constructor <;> simp [leer_codigo, leer_codigo_raw, hf]
  | some n =>
    cases n with
    | dir => constructor <;> simp [leer_codigo, leer_codigo_raw, hf]
    | file d =>
      cases d with
      | text s =>
        constructor
        · exact Or.inr ⟨s, by simp [leer_codigo, leer_codigo_raw, hf], rfl⟩
        · simp [leer_codigo, leer_codigo_raw, hf]
      | binary => constructor <;> simp [leer_codigo, leer_codigo_raw, hf]
      | unreadable => constructor <;> simp [leer_codigo, leer_codigo_raw, hf]

/-- Both outcomes of a script selection perform exactly one read of the
chosen script. -/
theorem selectScript_snd (fs : FS) (u : FsPath) (subs : List FsPath)
    (s script : FsPath) :
    (selectScript fs u subs s script).2 = [Effect.readScript script] := by
  unfold selectScript
  split <;> rfl

/-- The nine script paths of `fsNueve`, in sorted order. -/
def nueveScripts : List FsPath :=
  [["S", "s1.py"], ["S", "s2.py"], ["S", "s3.py"], ["S", "s4.py"],
   ["S", "s5.py"], ["S", "s6.py"], ["S", "s7.py"], ["S", "s8.py"],
   ["S", "s9.py"]]

/-- Claim C1 counterexample: with a root whose only directory is `Unidad 3`,
the main menu still offers the hardcoded pair `Unidad 1`/`Unidad 2` — not the
directories present at the root — and choosing option `1` fails to enter any
unit menu. -/
theorem c1_counterexample :
    unitOptions fsTres = [["Unidad 1"], ["Unidad 2"]] ∧
    listar_carpetas fsTres BASE_DIR = .ok [["Unidad 3"]] ∧
    unitOptions fsTres ≠ [["Unidad 3"]] ∧
    step fsTres .main "1" = (.main, []) := by decide

/-- Claim C1 (amended): the main menu offers the fixed hardcoded unit list
`[BASE_DIR/Unidad 1, BASE_DIR/Unidad 2]` on every render, regardless of the
directories present on disk; input is matched exactly against the dictionary
keys `"1"` and `"2"` (not parsed as an integer), a matching key whose
directory exists with a nonempty subfolder listing enters the corresponding
unit menu, and a non-key input other than `"0"` redisplays the main menu. -/
theorem c1_amended :
    (∀ fs : FS, unitOptions fs = [BASE_DIR ++ ["Unidad 1"], BASE_DIR ++ ["Unidad 2"]]) ∧
    (∀ (fs : FS) (k : String) (u : FsPath) (subs : List FsPath),
      lookupUnidad k = some u → listar_carpetas fs u = .ok subs → subs ≠ [] →
      step fs .main k = (.unit u subs, [])) ∧
    (∀ (fs : FS) (k : String), k ≠ "0" → lookupUnidad k = none →
      step fs .main k = (.main, [])) := by
  refine ⟨fun _ => rfl, ?_, ?_⟩
  · intro fs k u subs hlook hlist hne
    have hk0 : k ≠ "0" := by
      intro hk
      subst hk
      rw [show lookupUnidad "0" = none from rfl] at hlook
      exact Option.noConfusion hlook
    have hdir := find_eq_dir_of_listar_carpetas fs u subs hlist
    have hex : fs.existsPath u = true := by
      unfold FS.existsPath
      rw [hdir]
      rfl
    cases subs with
    | nil => exact absurd rfl hne
    | cons a as => simp [step, if_neg hk0, hlook, hex, hlist]
  · intro fs k hk hlook
    simp [step, if_neg hk, hlook]

/-- Claim C1 witness: the amended statement at a concrete snapshot, with the
valid key `"1"` and the invalid input `"abc"`. -/
theorem c1_witness :
    unitOptions fsDemo = [BASE_DIR ++ ["Unidad 1"], BASE_DIR ++ ["Unidad 2"]] ∧
    step fsDemo .main "1" = (.unit ["Unidad 1"] [["Unidad 1", "Semana 1"]], []) ∧
    step fsDemo .main "abc" = (.main, []) :=
  ⟨c1_amended.1 fsDemo,
   c1_amended.2.1 fsDemo "1" ["Unidad 1"] [["Unidad 1", "Semana 1"]]
     (by decide) (by decide) (by decide),
   c1_amended.2.2 fsDemo "abc" (by decide) (by decide)⟩

/-- Claim C3 counterexample: in a script menu listing nine scripts, the input
`"9"` — a base-10 integer literal with `1 ≤ 9 ≤ 9` — is not a valid selection:
it performs no read of the ninth script and leaves the script menu instead. -/
theorem c3_counterexample :
    (listar_scripts_py fsNueve ["S"]).toOption.map List.length = some 9 ∧
    pyIsdigit "9" = true ∧ pyInt "9" = 9 ∧
    step fsNueve (.scripts ["S"] [["S"]] ["S"]) "9" = (.unit ["S"] [["S"]], []) := by decide

/-- Claim C3 (amended): in a non-empty script menu with `count` scripts, over
all-ASCII input (the domain on which the `str.isdigit` / `int` embedding is
exact): every base-10 integer literal `n` with `1 ≤ n ≤ count` whose literal
string is not exactly `"9"` selects the `n`-th script and invokes the Content
Reader on it; the literal `"9"` itself is intercepted as a back command; and
any other ASCII input that fails to parse or is out of range redisplays the
same menu without a crash.  Outside ASCII the source's guard mismatch between
`str.isdigit` and `int` can instead crash the program (input `"²"` passes
`isdigit` and `int` raises an uncaught `ValueError`) or select a script
(`"٣"` converts to 3); see `pyIsdigit`. -/
theorem c3_amended :
    (∀ (fs : FS) (u : FsPath) (subs : List FsPath) (s : FsPath)
       (l : List FsPath) (input : String) (n : Nat),
      listar_scripts_py fs s = .ok l → l ≠ [] → allAscii input = true →
      pyIsdigit input = true → pyInt input = n →
      (h1 : 1 ≤ n) → (h2 : n ≤ l.length) → input ≠ "9" →
      (step fs (.scripts u subs s) input).2 =
        [Effect.readScript (l.get ⟨n - 1, by omega⟩)]) ∧
    (∀ (fs : FS) (u : FsPath) (subs : List FsPath) (s : FsPath)
       (l : List FsPath) (input : String),
      listar_scripts_py fs s = .ok l → l ≠ [] → allAscii input = true →
      input ≠ "0" → input ≠ "9" →
      (pyIsdigit input = false ∨ pyInt input = 0 ∨ l.length < pyInt input) →
      step fs (.scripts u subs s) input = (.scripts u subs s, [])) := by
  constructor
  · intro fs u subs s l input n hlist hne hascii hdig hval h1 h2 h9
    subst hval
    have h0 : input ≠ "0" := by
      intro hx
      rw [hx, show pyInt "0" = 0 from rfl] at h1
      omega
    have hemp : l.isEmpty = false := by
      cases l with
      | nil => exact absurd rfl hne
      | cons a as => rfl
    simp only [step, hlist]
    unfold stepScriptsMenu
    rw [if_neg (by rw [hemp]; exact Bool.false_ne_true)]
    rw [if_neg h0, if_neg h9]
    rw [if_neg (by rw [hdig]; simp)]
    have hcond : (0 : Int) ≤ (pyInt input : Int) - 1 ∧
        (pyInt input : Int) - 1 < (l.length : Int) := by
      constructor <;> omega
    rw [dif_pos hcond, selectScript_snd]
    exact congrArg (fun q => [Effect.readScript q])
      (congrArg l.get (Fin.ext
        (show ((pyInt input : Int) - 1).toNat = pyInt input - 1 by omega)))
  · intro fs u subs s l input hlist hne hascii h0 h9 hbad
    have hemp : l.isEmpty = false := by
      cases l with
      | nil => exact absurd rfl hne
      | cons a as => rfl
    simp only [step, hlist]
    unfold stepScriptsMenu
    rw [if_neg (by rw [hemp]; exact Bool.false_ne_true)]
    rw [if_neg h0, if_neg h9]
    by_cases hdig : pyIsdigit input = true
    · rw [if_neg (by rw [hdig]; simp)]
      have hfail : ¬((0 : Int) ≤ (pyInt input : Int) - 1 ∧
          (pyInt input : Int) - 1 < (l.length : Int)) := by
        rcases hbad with hb | hb | hb
        · rw [hb] at hdig; exact absurd hdig Bool.false_ne_true
        · rw [hb]; intro hc; omega
        · intro hc; omega
      rw [dif_neg hfail]
    · have hdig' : pyIsdigit input = false := by
        rw [Bool.not_eq_true] at hdig; exact hdig
      rw [if_pos (by rw [hdig']; rfl)]

/-- Claim C3 witness: the amended statement at a concrete nine-script menu,
selecting script three and rejecting the non-numeric ASCII input `"abc"`. -/
theorem c3_witness :
    (step fsNueve (.scripts ["S"] [["S"]] ["S"]) "3").2 =
      [Effect.readScript (nueveScripts.get ⟨2, by decide⟩)] ∧
    step fsNueve (.scripts ["S"] [["S"]] ["S"]) "abc" =
      (.scripts ["S"] [["S"]] ["S"], []) :=
  ⟨c3_amended.1 fsNueve ["S"] [["S"]] ["S"] nueveScripts "3" 3
     (by decide) (by decide) (by decide) (by decide) (by decide) (by decide)
     (by decide) (by decide),
   c3_amended.2 fsNueve ["S"] [["S"]] ["S"] nueveScripts "abc"
     (by decide) (by decide) (by decide) (by decide) (by decide)
     (Or.inl (by decide))⟩

/-- Claim C5 counterexample: a script menu over a folder with no `.py` files
does not pop back automatically: on any input other than `"0"` (here `"1"`
and the empty line) it stays in the same script-menu state, so the empty menu
persists until `"0"` is entered. -/
theorem c5_counterexample :
    listar_scripts_py fsSinScripts ["S"] = .ok [] ∧
    step fsSinScripts (.scripts ["U"] [["S"]] ["S"]) "1" =
      (.scripts ["U"] [["S"]] ["S"], []) ∧
    step fsSinScripts (.scripts ["U"] [["S"]] ["S"]) "" =
      (.scripts ["U"] [["S"]] ["S"], []) ∧
    step fsSinScripts (.scripts ["U"] [["S"]] ["S"]) "0" =
      (.unit ["U"] [["S"]], []) := by decide

/-- Claim C5 (amended): when the scripts listing is empty the menu displays
the empty-state message with a 0-only prompt and pops back to the unit menu
only when the user enters `"0"`; every other input redisplays the same empty
menu. -/
theorem c5_amended (fs : FS) (u : FsPath) (subs : List FsPath) (s : FsPath)
    (input : String) (h : listar_scripts_py fs s = .ok []) :
    step fs (.scripts u subs s) input =
      if input = "0" then (.unit u subs, []) else (.scripts u subs s, []) := by
  simp only [step, h]
  rfl

/-- Claim C5 witness: the amended statement at a concrete empty folder, with
a non-back input. -/
theorem c5_witness :
    step fsSinScripts (.scripts ["U"] [["S"]] ["S"]) "x" =
      (.scripts ["U"] [["S"]] ["S"], []) :=
  c5_amended fsSinScripts ["U"] [["S"]] ["S"] "x" (by decide)

/-- Claim C7: after a successful content display, answering the execute
prompt with `"1"` launches the chosen script and any other answer (including
`"0"`) performs no launch; in both cases the flow proceeds to the
acknowledgement wait, after which any keypress redisplays the script menu. -/
theorem c7_execute_prompt :
    (∀ (fs : FS) (u : FsPath) (subs : List FsPath) (s script : FsPath),
      step fs (.execPrompt u subs s script) "1" =
        (.ackWait u subs s, [.launch script])) ∧
    (∀ (fs : FS) (u : FsPath) (subs : List FsPath) (s script : FsPath)
       (ans : String), ans ≠ "1" →
      step fs (.execPrompt u subs s script) ans = (.ackWait u subs s, [])) ∧
    (∀ (fs : FS) (u : FsPath) (subs : List FsPath) (s : FsPath)
       (input : String),
      step fs (.ackWait u subs s) input = (.scripts u subs s, [])) := by
  refine ⟨fun _ _ _ _ _ => rfl, ?_, fun _ _ _ _ _ => rfl⟩
  intro fs u subs s script ans hans
  simp [step, if_neg hans]

/-- Claim C7 witness: the prompt behavior at concrete states, answering
`"0"` for the no-launch case. -/
theorem c7_witness :
    step fsDemo (.execPrompt ["U"] [["S"]] ["S"] ["S", "a.py"]) "1" =
      (.ackWait ["U"] [["S"]] ["S"], [.launch ["S", "a.py"]]) ∧
    step fsDemo (.execPrompt ["U"] [["S"]] ["S"] ["S", "a.py"]) "0" =
      (.ackWait ["U"] [["S"]] ["S"], []) ∧
    step fsDemo (.ackWait ["U"] [["S"]] ["S"]) "" =
      (.scripts ["U"] [["S"]] ["S"], []) :=
  ⟨c7_execute_prompt.1 fsDemo ["U"] [["S"]] ["S"] ["S", "a.py"],
   c7_execute_prompt.2.1 fsDemo ["U"] [["S"]] ["S"] ["S", "a.py"] "0" (by decide),
   c7_execute_prompt.2.2 fsDemo ["U"] [["S"]] ["S"] ""⟩

/-- Claim C8: the empty input line is an invalid option at every menu level —
main menu, unit menu, and script menu (empty or not) — leaving the state
unchanged, whereas `"0"` exits or pops; so the empty line is never treated as
`"0"`. -/
theorem c8_empty_input :
    (∀ fs : FS, step fs .main "" = (.main, [])) ∧
    (∀ (fs : FS) (u : FsPath) (subs : List FsPath),
      step fs (.unit u subs) "" = (.unit u subs, [])) ∧
    (∀ (fs : FS) (u : FsPath) (subs : List FsPath) (s : FsPath)
       (l : List FsPath), listar_scripts_py fs s = .ok l →
      step fs (.scripts u subs s) "" = (.scripts u subs s, [])) ∧
    (∀ fs : FS, step fs .main "0" = (.exited, [])) ∧
    (∀ (fs : FS) (u : FsPath) (subs : List FsPath),
      step fs (.unit u subs) "0" = (.main, [])) ∧
    (∀ (fs : FS) (u : FsPath) (subs : List FsPath) (s : FsPath)
       (l : List FsPath), listar_scripts_py fs s = .ok l →
      step fs (.scripts u subs s) "0" = (.unit u subs, [])) := by
  refine ⟨fun _ => rfl, fun _ _ _ => rfl, ?_, fun _ => rfl, fun _ _ _ => rfl, ?_⟩
  · intro fs u subs s l h
    simp only [step, h]
    cases l with
    | nil => rfl
    | cons a as => rfl
  · intro fs u subs s l h
    simp only [step, h]
    cases l with
    | nil => rfl
    | cons a as => rfl

/-- Claim C8 witness: the empty line and `"0"` at concrete menus. -/
theorem c8_witness :
    step fsDemo .main "" = (.main, []) ∧
    step fsDemo (.unit ["Unidad 1"] [["Unidad 1", "Semana 1"]]) "" =
      (.unit ["Unidad 1"] [["Unidad 1", "Semana 1"]], []) ∧
    step fsNueve (.scripts ["S"] [["S"]] ["S"]) "" =
      (.scripts ["S"] [["S"]] ["S"], []) ∧
    step fsNueve (.scripts ["S"] [["S"]] ["S"]) "0" = (.unit ["S"] [["S"]], []) :=
  ⟨c8_empty_input.1 fsDemo,
   c8_empty_input.2.1 fsDemo ["Unidad 1"] [["Unidad 1", "Semana 1"]],
   c8_empty_input.2.2.1 fsNueve ["S"] [["S"]] ["S"] nueveScripts (by decide),
   c8_empty_input.2.2.2.2.2 fsNueve ["S"] [["S"]] ["S"] nueveScripts (by decide)⟩

/-- Claim C9: in every non-empty script menu the input `"9"` is intercepted
before index parsing and behaves exactly like `"0"`: a single pop back to the
containing unit menu — not a jump to the main menu — with no script read, so
a ninth script can never be selected by entering `"9"`. -/
theorem c9_nine_intercepted (fs : FS) (u : FsPath) (subs : List FsPath)
    (s : FsPath) (l : List FsPath) (h : listar_scripts_py fs s = .ok l)
    (hne : l ≠ []) :
    step fs (.scripts u subs s) "9" = (.unit u subs, []) ∧
    step fs (.scripts u subs s) "9" = step fs (.scripts u subs s) "0" ∧
    (step fs (.scripts u subs s) "9").1 ≠ St.main := by
  simp only [step, h]
  cases l with
  | nil => exact absurd rfl hne
  | cons a as => exact ⟨rfl, rfl, fun hc => St.noConfusion hc⟩

/-- Claim C9 witness: the interception at a concrete menu of nine scripts,
where `"9"` would otherwise select the ninth one. -/
theorem c9_witness :
    step fsNueve (.scripts ["S"] [["S"]] ["S"]) "9" = (.unit ["S"] [["S"]], []) ∧
    step fsNueve (.scripts ["S"] [["S"]] ["S"]) "9" =
      step fsNueve (.scripts ["S"] [["S"]] ["S"]) "0" ∧
    (step fsNueve (.scripts ["S"] [["S"]] ["S"]) "9").1 ≠ St.main :=
  c9_nine_intercepted fsNueve ["S"] [["S"]] ["S"] nueveScripts (by decide) (by decide)

end Dashboard
